import Mathlib

set_option autoImplicit false
set_option maxRecDepth 20000

/-! Formal model of the jc command line tool (version 1.8.0 sources): the
magic syntax resolver and parser registry of jc/cli.py, and the jobs parser
of jc/parsers/jobs.py.  Python strings are modelled as Lean strings (lists
of characters), Python exceptions as an explicit error type carried in an
Except value, and the CPython string primitives used by the sources
(split, splitlines, lstrip, rstrip, find, int conversion) are reproduced
as executable Lean functions. -/

/-- Python exception kinds raised by the modelled code paths. -/
inductive PyErr where
  | indexError
  | valueError
  | typeError
deriving DecidableEq

/-- Scalar values appearing in the records the jobs parser builds. -/
inductive JVal where
  | num (n : Int)
  | str (s : String)
deriving DecidableEq

/-- A Python dict with string keys as an insertion-ordered association list. -/
abbrev PyRecord : Type := List (String × JVal)

/-- The whitespace class used by str.split with no separator (ASCII part). -/
def isPySpace (c : Char) : Bool :=
  c == ' ' || c == '\t' || c == '\n' || c == '\r' || c == '\x0b' || c == '\x0c'

/-- Characters treated as line boundaries by str.splitlines. -/
def lineBreakChars : List Char :=
  ['\n', '\r', '\x0b', '\x0c', '\x1c', '\x1d', '\x1e', '\u0085', '\u2028', '\u2029']

/-- Worker for str.splitlines: accumulates the current line in reverse. -/
def pySplitLinesAux : List Char → List Char → List (List Char)
  | [], acc => if acc.isEmpty then [] else [acc.reverse]
  | '\r' :: '\n' :: rest, acc => acc.reverse :: pySplitLinesAux rest []
  | c :: rest, acc =>
    if lineBreakChars.contains c then acc.reverse :: pySplitLinesAux rest []
    else pySplitLinesAux rest (c :: acc)

/-- Python str.splitlines (without keepends), as used at jobs.py line 54. -/
def pySplitLines (s : String) : List String :=
  (pySplitLinesAux s.data []).map String.mk

/-- Worker for str.split with no separator: k bounds the number of splits
still allowed (the Python maxsplit argument). -/
def pySplitAux (k : Nat) (cs : List Char) : List (List Char) :=
  match cs.dropWhile isPySpace with
  | [] => []
  | c :: rest =>
    match k with
    | 0 => [c :: rest]
    | k2 + 1 =>
      ((c :: rest).takeWhile (fun a => !(isPySpace a))) ::
        pySplitAux k2 ((c :: rest).dropWhile (fun a => !(isPySpace a)))

/-- Python str.split(maxsplit=k) with the default whitespace separator. -/
def pySplit (s : String) (k : Nat) : List String :=
  (pySplitAux k s.data).map String.mk

/-- Python str.split() with no maxsplit bound: the length of the string is
always enough fuel, since every emitted token consumes at least one
character. -/
def pySplitAll (s : String) : List String :=
  (pySplitAux s.data.length s.data).map String.mk

/-- Python s.find(c) != -1, i.e. membership of a character in a string. -/
def pyContains (s : String) (c : Char) : Bool :=
  s.data.contains c

/-- Python str.lstrip with a single-character argument: drop every leading
occurrence of that character. -/
def pyLstrip (s : String) (c : Char) : String :=
  ⟨s.data.dropWhile (fun a => a == c)⟩

/-- Python str.rstrip with a single-character argument: drop every trailing
occurrence of that character. -/
def pyRstrip (s : String) (c : Char) : String :=
  ⟨(s.data.reverse.dropWhile (fun a => a == c)).reverse⟩

/-- Digit run accepted by the Python int constructor after the first digit:
underscores are allowed only between two digits. -/
def pyDigitsAux : List Char → Nat → Option Nat
  | [], acc => some acc
  | '_' :: rest, acc =>
    match rest with
    | [] => none
    | c :: rest2 =>
      if c.isDigit then pyDigitsAux rest2 (acc * 10 + (c.toNat - 48)) else none
  | c :: rest, acc =>
    if c.isDigit then pyDigitsAux rest (acc * 10 + (c.toNat - 48)) else none

/-- An unsigned integer literal as accepted by the Python int constructor:
a digit followed by digits with optional single underscore separators. -/
def pyDigitsVal : List Char → Option Nat
  | [] => none
  | c :: rest => if c.isDigit then pyDigitsAux rest (c.toNat - 48) else none

/-- Python int(s) for a decimal string: surrounding whitespace stripped,
one optional sign, then an underscore-separated digit run; none models a
raised ValueError. -/
def pyIntParse (s : String) : Option Int :=
  let t := ((s.data.dropWhile isPySpace).reverse.dropWhile isPySpace).reverse
  match t with
  | '+' :: rest => (pyDigitsVal rest).map (fun n => (n : Int))
  | '-' :: rest => (pyDigitsVal rest).map (fun n => -(n : Int))
  | _ => (pyDigitsVal t).map (fun n => (n : Int))

/-- True when the string is nonempty and its first character is an ASCII
digit: the test at jobs.py line 71, parsed_line[1][0] in string.digits. -/
def startsDigit (t : String) : Bool :=
  match t.data with
  | c :: _ => c.isDigit
  | [] => false

/-- Result of running a list of computations left to right, stopping at the
first raised exception, as a Python for loop over parse steps does. -/
def exceptMapM {α β : Type} (f : α → Except PyErr β) : List α → Except PyErr (List β)
  | [] => .ok []
  | a :: as =>
    match f a with
    | .error e => .error e
    | .ok b =>
      match exceptMapM f as with
      | .error e => .error e
      | .ok bs => .ok (b :: bs)

/-- True exactly on ok results. -/
def exOk {α : Type} : Except PyErr α → Bool
  | .ok _ => true
  | .error _ => false

namespace jobs

/-- History marker detection and job-number cleanup of jobs.py lines 86-95:
the first check sets history to current and strips trailing plus signs,
the second (on the already stripped token) overwrites history with
previous and strips trailing minus signs, then leading open brackets and
trailing close brackets are stripped. -/
def historyStrip (t : String) : Option String × String :=
  let p1 := if pyContains t '+' then (some "current", pyRstrip t '+') else (none, t)
  let p2 := if pyContains p1.2 '-' then (some "previous", pyRstrip p1.2 '-') else p1
  (p2.1, pyRstrip (pyLstrip p2.2 '[') ']')

/-- The job-number token after marker and bracket stripping (jobs.py line 95). -/
def jobStrip (t : String) : String :=
  (historyStrip t).2

/-- The history value recorded for a job-number token, if any. -/
def jobHist (t : String) : Option String :=
  (historyStrip t).1

/-- The history field entries inserted by jobs.py lines 101-102. -/
def histEntry : Option String → PyRecord
  | none => []
  | some h => [("history", JVal.str h)]

/-- The pid field entries of jobs.py lines 99-100: nothing when the pid
string is empty (falsy), otherwise int conversion that may raise. -/
def pidEntry (pid : String) : Except PyErr PyRecord :=
  if pid == "" then .ok []
  else
    match pyIntParse pid with
    | none => .error .valueError
    | some p => .ok [("pid", JVal.num p)]

/-- Record assembly of jobs.py lines 86-104 common to both formats: tail is
the token list after the job-number token (parsed_line[1:]) and pid is the
pid string popped in the long format (empty in the short format).  Field
insertion order follows the source: job_number, pid, history, status,
command; a missing status or command position raises IndexError. -/
def finishLine (t0 pid : String) (tail : List String) : Except PyErr PyRecord :=
  match pyIntParse (jobStrip t0) with
  | none => .error .valueError
  | some n =>
    match pidEntry pid with
    | .error e => .error e
    | .ok pe =>
      match tail with
      | st :: cmd :: _ =>
        .ok (("job_number", JVal.num n) :: pe ++ histEntry (jobHist t0) ++
          [("status", JVal.str st), ("command", JVal.str cmd)])
      | _ => .error .indexError

/-- The per-entry body of the loop at jobs.py lines 61-106, applied to
entry.split(maxsplit=2).  Fewer than two tokens or an empty second token
makes parsed_line[1][0] raise IndexError; a second token starting with a
digit takes the long-format branch, which pops the pid and job number and
re-splits the remainder with maxsplit=1 (raising IndexError when there is
no remainder token to pop). -/
def processTokens : List String → Except PyErr PyRecord
  | [] => .error .indexError
  | [_] => .error .indexError
  | t0 :: t1 :: rest =>
    if t1.data.isEmpty then .error .indexError
    else if startsDigit t1 then
      match rest with
      | [] => .error .indexError
      | t2 :: _ => finishLine t0 t1 (pySplit t2 1)
    else
      finishLine t0 "" (t1 :: rest)

/-- One non-blank input line processed as by the loop body of jobs.py. -/
def parseLine (entry : String) : Except PyErr PyRecord :=
  processTokens (pySplit entry 2)

/-- jobs.py lines 54-57: splitlines followed by filter(None, ...), which
drops exactly the empty strings. -/
def cleanLines (data : String) : List String :=
  (pySplitLines data).filter (fun l => l != "")

/-- jobs.py parse(data): every non-blank line becomes one record, in input
order; the first raised exception aborts the whole call with no output. -/
def parse (data : String) : Except PyErr (List PyRecord) :=
  exceptMapM parseLine (cleanLines data)

/-- The parameter list of the function defined at jobs.py line 51:
def parse(data). -/
def parseParams : List String := ["data"]

end jobs

/-- The keyword argument names supplied by the dispatch call at cli.py
line 259: parser.parse(data, raw=raw, quiet=quiet). -/
def cliParseKwargs : List String := ["raw", "quiet"]

/-- Python call binding for the dispatch invocation of jobs.parse: the
positional argument binds the first parameter, after which every keyword
argument must name one of the remaining parameters; an unknown keyword
raises TypeError before the function body runs. -/
def callJobsParse (data : String) (kwargs : List String) : Except PyErr (List PyRecord) :=
  if kwargs.all (fun k => (jobs.parseParams.drop 1).contains k) then jobs.parse data
  else .error .typeError

/-- The parsers dict of cli.py lines 25-63, in source order: parser short
name paired with its magic command name, none where the source stores
None. -/
def parsersList : List (String × Option String) :=
  [ ("arp", some "arp"),
    ("crontab", some "crontab"),
    ("crontab-u", none),
    ("df", some "df"),
    ("dig", some "dig"),
    ("du", some "du"),
    ("env", some "env"),
    ("free", some "free"),
    ("fstab", none),
    ("history", some "history"),
    ("hosts", none),
    ("id", some "id"),
    ("ifconfig", some "ifconfig"),
    ("ini", none),
    ("iptables", some "iptables"),
    ("jobs", some "jobs"),
    ("ls", some "ls"),
    ("lsblk", some "lsblk"),
    ("lsmod", some "lsmod"),
    ("lsof", some "lsof"),
    ("mount", some "mount"),
    ("netstat", some "netstat"),
    ("pip-list", some "pip3 list"),
    ("pip-show", some "pip3 show"),
    ("ps", some "ps"),
    ("route", some "route"),
    ("ss", some "ss"),
    ("stat", some "stat"),
    ("systemctl", some "systemctl"),
    ("systemctl-lj", some "systemctl list-jobs"),
    ("systemctl-ls", some "systemctl list-sockets"),
    ("systemctl-luf", some "systemctl list-unit-files"),
    ("uname", some "uname -a"),
    ("uptime", some "uptime"),
    ("w", some "w"),
    ("xml", none),
    ("yaml", none) ]

/-- cli.py line 172: the reversed dict comprehension mapping each defined
magic command name to its parser short name; all magic command names are
distinct, so insertion order is the source order and nothing is
overwritten. -/
def jcCommands : List (String × String) :=
  parsersList.filterMap (fun kv => kv.2.map (fun m => (m, kv.1)))

/-- cli.py line 73: parser_argument[2:]. -/
def parser_shortname (a : String) : String :=
  ⟨a.data.drop 2⟩

/-- cli.py line 78: the f-string prefixing two dashes. -/
def parser_argument (p : String) : String :=
  "--" ++ p

/-- First whitespace token of a string, none when there is none. -/
def firstTokOf (s : String) : Option String :=
  (pySplitAll s).head?

/-- Second whitespace token of a string, none when there is none; indexing
comm.split()[1] raises IndexError exactly when this is none. -/
def secondTokOf (s : String) : Option String :=
  (pySplitAll s)[1]?

/-- Python str.startswith applied to a single dash. -/
def startsWithDash (s : String) : Bool :=
  match s.data with
  | c :: _ => c == '-'
  | [] => false

/-- Observable outcome of the magic function of cli.py lines 168-202. -/
inductive MagicOutcome where
  | noMagic
  | ranCommand (p : String) (cmdline : String)
  | usageExit (badLine : String)
  | crashed (e : PyErr)
deriving DecidableEq

/-- The disambiguation loop of cli.py lines 183-185: candidates are scanned
in order, the accumulator keeps the last exact match on second tokens, and
a candidate whose magic command name has no second token makes
comm2.split()[1] raise IndexError. -/
def magicLoop (a1 : String) : List (String × String) → Option String → Except PyErr (Option String)
  | [], acc => .ok acc
  | (comm2, pars2) :: rest, acc =>
    match secondTokOf comm2 with
    | none => .error .indexError
    | some t => magicLoop a1 rest (if a1 == t then some pars2 else acc)

/-- Candidate selection and disambiguation of cli.py lines 177-190,
producing the found parser: with more than one candidate the second input
token is consulted (args_given[1] raises IndexError when absent), with at
most one candidate the guarded options[0][1] access yields the candidate
or none. -/
def magicFound (a0 : String) (rest : List String) : Except PyErr (Option String) :=
  let options := jcCommands.filter (fun q => firstTokOf q.1 == some a0)
  if options.length > 1 then
    match rest.head? with
    | none => .error .indexError
    | some a1 => magicLoop a1 options none
  else
    .ok (options.head?.map (fun q => q.2))

/-- Blank-separated join of the given argument vector, as run_command at
cli.py line 193. -/
def joinSpace (l : List String) : String :=
  String.intercalate " " l

/-- The magic function of cli.py lines 168-202 on the argument vector after
the program name.  It does nothing when there are no arguments or the
first starts with a dash; otherwise it either replaces the process with
the reconstructed pipeline (ranCommand), prints usage text naming the
unmatched command line and exits 1 (usageExit), or lets an exception
escape (crashed). -/
def jcMagic (args : List String) : MagicOutcome :=
  match args with
  | [] => .noMagic
  | a0 :: rest =>
    if startsWithDash a0 then .noMagic
    else
      match magicFound a0 rest with
      | .error e => .crashed e
      | .ok none => .usageExit (joinSpace (a0 :: rest))
      | .ok (some p) =>
        .ranCommand p (joinSpace (a0 :: rest) ++ " | jc " ++ parser_argument p ++ " -p")

/-- The error message printed by cli.py line 263 for the jobs parser. -/
def jobsErrorMsg : String :=
  "jobs parser could not parse the input data. Did you use the correct parser?\n         For details use the -d option."

/-- Observable outcome of the dispatch tail of cli.py main. -/
inductive DispatchOutcome where
  | output (recs : List PyRecord)
  | errorExit (msg : String) (code : Nat)
deriving DecidableEq

/-- cli.py lines 258-264 for the jobs parser in the default (non-debug)
mode: an ok parse result is printed, any raised exception is caught and
converted to the fixed user-facing message and sys.exit(1). -/
def jobsDispatchOutcome (r : Except PyErr (List PyRecord)) : DispatchOutcome :=
  match r with
  | .ok recs => .output recs
  | .error _ => .errorExit jobsErrorMsg 1

/-- Membership test of cli.py line 255: parser_shortname(arg) in
parsers.keys(). -/
def isKnownArg (a : String) : Bool :=
  (parsersList.map Prod.fst).contains (parser_shortname a)

/-- The parser short names attempted by the dispatch loops of cli.py lines
241-261: the argument vector is scanned in order and the loop body runs
for the first argument whose derived short name is registered, after which
the loop is left (break on success, sys.exit or propagation on failure). -/
def dispatchAttempts : List String → List String
  | [] => []
  | a :: rest =>
    if isKnownArg a then [parser_shortname a] else dispatchAttempts rest

/-- A token is numeric in the sense of the claim on long-format detection:
nonempty and made of ASCII digits only. -/
def isNumericStr (t : String) : Bool :=
  (!(t == "")) && t.data.all Char.isDigit

/-- The claim that the pid field is emitted exactly for lines whose entire
second whitespace token is numeric. -/
def pidIffNumericClaim : Prop :=
  ∀ (l : String) (rec : PyRecord), jobs.parseLine l = .ok rec →
    ((List.lookup "pid" rec).isSome = true ↔
      ∃ t0 t1 rest, pySplit l 2 = t0 :: t1 :: rest ∧ isNumericStr t1 = true)

/-- A non-blank line consisting solely of whitespace. -/
def wsOnly (l : String) : Bool :=
  (!(l == "")) && l.data.all isPySpace

/-- A non-blank line with fewer than two whitespace tokens. -/
def fewTok (l : String) : Bool :=
  (!(l == "")) && decide ((pySplit l 2).length < 2)

/-- A short-format line (second token not starting with a digit) with
fewer than three whitespace tokens. -/
def shortFew (l : String) : Bool :=
  match pySplit l 2 with
  | [_, t1] => !(startsDigit t1)
  | _ => false

/-- As shortFew, with the job-number token numeric after stripping. -/
def shortFewNum (l : String) : Bool :=
  match pySplit l 2 with
  | [t0, t1] => (!(startsDigit t1)) && (pyIntParse (jobs.jobStrip t0)).isSome
  | _ => false

/-- The claim that the jobs parser raises an out-of-range indexing error on
every input containing a whitespace-only line, a line with fewer than two
tokens, or a short-format line with fewer than three tokens. -/
def jobsIndexErrorClaim : Prop :=
  ∀ data : String,
    (∃ line ∈ jobs.cleanLines data,
      wsOnly line = true ∨ fewTok line = true ∨ shortFew line = true) →
    jobs.parse data = .error .indexError

/-- An ok result of the sequential parse loop means every element was
processed without an exception. -/
theorem exceptMapM_ok_mem {α β : Type} (f : α → Except PyErr β) :
    ∀ (l : List α) (ys : List β), exceptMapM f l = .ok ys → ∀ a ∈ l, ∃ b, f a = .ok b := by
  intro l
  induction l with
  | nil => intro ys h a ha; simp at ha
  | cons x xs ih =>
    intro ys h a ha
    simp only [exceptMapM] at h
    cases hfx : f x with
    | error e => rw [hfx] at h; simp at h
    | ok b =>
      rw [hfx] at h
      cases hrec : exceptMapM f xs with
      | error e => rw [hrec] at h; simp at h
      | ok bs =>
        rcases List.mem_cons.mp ha with rfl | hx
        · exact ⟨b, hfx⟩
        · exact ih bs hrec a hx

/-- If some retained line cannot be processed, the whole parse is not ok. -/
theorem parse_not_ok_of_mem (data line : String) (hmem : line ∈ jobs.cleanLines data)
    (hline : ∀ b, jobs.parseLine line ≠ .ok b) : exOk (jobs.parse data) = false := by
  cases hp : jobs.parse data with
  | error e => rfl
  | ok ys =>
    unfold jobs.parse at hp
    obtain ⟨b, hb⟩ := exceptMapM_ok_mem jobs.parseLine (jobs.cleanLines data) ys hp line hmem
    exact absurd hb (hline b)

/-- Elimination for a successful common record assembly step. -/
theorem finishLine_ok_elim (t0 pid : String) (tail : List String) (rec : PyRecord)
    (h : jobs.finishLine t0 pid tail = .ok rec) :
    ∃ n pe st cmd rest3, pyIntParse (jobs.jobStrip t0) = some n ∧
      jobs.pidEntry pid = .ok pe ∧ tail = st :: cmd :: rest3 ∧
      rec = ("job_number", JVal.num n) :: pe ++ jobs.histEntry (jobs.jobHist t0) ++
        [("status", JVal.str st), ("command", JVal.str cmd)] := by
  unfold jobs.finishLine at h
  split at h
  · simp at h
  · rename_i n hn
    split at h
    · simp at h
    · rename_i pe hpe
      split at h
      · rename_i st cmd rest3
        exact ⟨n, pe, st, cmd, rest3, hn, hpe, rfl, (Except.ok.inj h).symm⟩
      · simp at h

/-- A successful pid entry for a nonempty pid string is an int conversion. -/
theorem pidEntry_ok_nonempty (pid : String) (pe : PyRecord) (hne : pid ≠ "")
    (h : jobs.pidEntry pid = .ok pe) :
    ∃ p, pyIntParse pid = some p ∧ pe = [("pid", JVal.num p)] := by
  unfold jobs.pidEntry at h
  rw [if_neg (by simpa using hne)] at h
  split at h
  · simp at h
  · rename_i p hp
    exact ⟨p, hp, (Except.ok.inj h).symm⟩

/-- A line whose job-number token does not survive int conversion can never
produce a record: the body fails with some exception on every path. -/
theorem processTokens_badJob (t0 : String) (rest : List String)
    (hbad : pyIntParse (jobs.jobStrip t0) = none) :
    ∀ b, jobs.processTokens (t0 :: rest) ≠ .ok b := by
  intro b hok
  cases rest with
  | nil => simp [jobs.processTokens] at hok
  | cons t1 rest2 =>
    simp only [jobs.processTokens] at hok
    split at hok
    · simp at hok
    · split at hok
      · split at hok
        · simp at hok
        · unfold jobs.finishLine at hok
          rw [hbad] at hok
          simp at hok
      · unfold jobs.finishLine at hok
        rw [hbad] at hok
        simp at hok

/-- Splitting with at most k splits yields at most k + 1 tokens. -/
theorem pySplitAux_length (k : Nat) : ∀ cs : List Char, (pySplitAux k cs).length ≤ k + 1 := by
  induction k with
  | zero =>
    intro cs
    rw [pySplitAux]
    split
    · simp
    · simp
  | succ k2 ih =>
    intro cs
    rw [pySplitAux]
    split
    · simp
    · simp only [List.length_cons]
      exact Nat.succ_le_succ (ih _)

/-- String-level form of the token count bound. -/
theorem pySplit_length (s : String) (k : Nat) : (pySplit s k).length ≤ k + 1 := by
  unfold pySplit
  rw [List.length_map]
  exact pySplitAux_length k s.data

/-- A string made only of whitespace splits into no tokens at all. -/
theorem pySplit_eq_nil_of_space (l : String) (h : l.data.all isPySpace = true) (k : Nat) :
    pySplit l k = [] := by
  have hd : l.data.dropWhile isPySpace = [] := by
    rw [List.dropWhile_eq_nil_iff]
    intro x hx
    exact List.all_eq_true.mp h x hx
  unfold pySplit
  rw [pySplitAux, hd]
  rfl

/-- The disambiguation loop only ever reports a candidate from its input
list (or passes its accumulator through). -/
theorem magicLoop_found (a1 : String) :
    ∀ (l : List (String × String)) (acc : Option String) (p : String),
      magicLoop a1 l acc = .ok (some p) → (∃ q ∈ l, q.2 = p) ∨ acc = some p := by
  intro l
  induction l with
  | nil =>
    intro acc p h
    right
    simpa [magicLoop] using h
  | cons q rest ih =>
    intro acc p h
    obtain ⟨comm2, pars2⟩ := q
    simp only [magicLoop] at h
    cases hsec : secondTokOf comm2 with
    | none => rw [hsec] at h; simp at h
    | some t =>
      rw [hsec] at h
      rcases ih _ p h with hl | hr
      · obtain ⟨q2, hq2, hq2p⟩ := hl
        exact Or.inl ⟨q2, List.mem_cons_of_mem _ hq2, hq2p⟩
      · by_cases hat : (a1 == t) = true
        · rw [if_pos hat] at hr
          exact Or.inl ⟨(comm2, pars2), List.mem_cons_self .., Option.some.inj hr⟩
        · rw [if_neg hat] at hr
          exact Or.inr hr

/-- Every entry of the reversed command dict comes from a registry entry
with a defined magic command name. -/
theorem jcCommands_mem (m p : String) (h : (m, p) ∈ jcCommands) :
    (p, some m) ∈ parsersList := by
  unfold jcCommands at h
  rw [List.mem_filterMap] at h
  obtain ⟨⟨k, v⟩, hkv, heq⟩ := h
  cases v with
  | none => simp at heq
  | some m2 =>
    simp only [Option.map_some'] at heq
    obtain ⟨hm, hp⟩ := Prod.mk.inj (Option.some.inj heq)
    subst hm
    subst hp
    exact hkv

/-- A found parser always comes from the reversed command dict. -/
theorem magicFound_mem (a0 : String) (rest : List String) (p : String)
    (h : magicFound a0 rest = .ok (some p)) : ∃ q ∈ jcCommands, q.2 = p := by
  simp only [magicFound] at h
  by_cases hlen : (jcCommands.filter (fun q => firstTokOf q.1 == some a0)).length > 1
  · rw [if_pos hlen] at h
    cases hh : rest.head? with
    | none => rw [hh] at h; simp at h
    | some a1 =>
      rw [hh] at h
      rcases magicLoop_found a1 _ none p h with hl | hr
      · obtain ⟨q, hq, hqp⟩ := hl
        exact ⟨q, List.mem_of_mem_filter hq, hqp⟩
      · simp at hr
  · rw [if_neg hlen] at h
    have h2 := Except.ok.inj h
    cases hh : (jcCommands.filter (fun q => firstTokOf q.1 == some a0)).head? with
    | none => rw [hh] at h2; simp at h2
    | some q =>
      rw [hh] at h2
      simp only [Option.map_some'] at h2
      exact ⟨q, List.mem_of_mem_filter (List.mem_of_mem_head? hh), Option.some.inj h2⟩

/-- C6: the exemplar parse maps the three scenario lines to exactly the
specified records, with fields in the order job_number, pid, history,
status, command. -/
theorem jc_C6_scenarios :
    jobs.parse "[1]   Running     sleep 10000 &" =
      .ok [[("job_number", JVal.num 1), ("status", JVal.str "Running"),
            ("command", JVal.str "sleep 10000 &")]] ∧
    jobs.parse "[4]-  14814 Running     sleep 10003 &" =
      .ok [[("job_number", JVal.num 4), ("pid", JVal.num 14814),
            ("history", JVal.str "previous"), ("status", JVal.str "Running"),
            ("command", JVal.str "sleep 10003 &")]] ∧
    jobs.parse "[5]+  14815 Running     sleep 10004 &" =
      .ok [[("job_number", JVal.num 5), ("pid", JVal.num 14815),
            ("history", JVal.str "current"), ("status", JVal.str "Running"),
            ("command", JVal.str "sleep 10004 &")]] :=
  ⟨rfl, rfl, rfl⟩

/-- C2 (code bug): the jobs parser defines parse(data) with a single
parameter, so the dispatch call parse(data, raw=raw, quiet=quiet) of
cli.py line 259 raises TypeError even on well-formed input that the body
itself parses successfully. -/
theorem jc_C2_arity_bug :
    callJobsParse "[1]   Running     sleep 10000 &" cliParseKwargs = .error .typeError ∧
    jobs.parse "[1]   Running     sleep 10000 &" =
      .ok [[("job_number", JVal.num 1), ("status", JVal.str "Running"),
            ("command", JVal.str "sleep 10000 &")]] :=
  ⟨rfl, rfl⟩

/-- C1 (code bug): the magic tokens systemctl list-jobs have a leading
token matching four descriptors and a second token matching exactly one
candidate (systemctl-lj), yet resolution crashes with IndexError at
comm2.split()[1] on the one-token candidate systemctl instead of
selecting that descriptor. -/
theorem jc_C1_disambiguation_crash :
    jcMagic ["systemctl", "list-jobs"] = MagicOutcome.crashed PyErr.indexError :=
  rfl

/-- C3 (code bug): a single-token magic invocation whose leading token
matches several descriptors crashes with IndexError at args_given[1]
before any usage text can be printed; no descriptor is selected, but the
claimed usage message is never emitted. -/
theorem jc_C3_single_token_crash :
    jcMagic ["systemctl"] = MagicOutcome.crashed PyErr.indexError :=
  rfl

/-- C9: registry short names are pairwise distinct, and stripping the
first two characters is a left inverse of prefixing two dashes, so
invocation flags round-trip with short names. -/
theorem jc_C9_registry_flags :
    (parsersList.map Prod.fst).Nodup ∧
    ∀ s : String, parser_shortname (parser_argument s) = s := by
  constructor
  · decide
  · intro s
    cases s with
    | mk data => rfl

/-- C8: magic resolution only ever selects a descriptor that has a magic
command name in the registry; descriptors stored with none are never
chosen by the resolver. -/
theorem jc_C8_no_none_selected (args : List String) (p c : String)
    (h : jcMagic args = MagicOutcome.ranCommand p c) :
    ∃ m, (p, some m) ∈ parsersList := by
  cases args with
  | nil => simp [jcMagic] at h
  | cons a0 rest =>
    rw [jcMagic] at h
    by_cases hd : startsWithDash a0 = true
    · rw [if_pos hd] at h
      simp at h
    · rw [if_neg hd] at h
      cases hf : magicFound a0 rest with
      | error e => rw [hf] at h; simp at h
      | ok o =>
        rw [hf] at h
        cases o with
        | none => simp at h
        | some p2 =>
          obtain ⟨hp2, -⟩ := MagicOutcome.ranCommand.inj h
          subst hp2
          obtain ⟨q, hq, hqp⟩ := magicFound_mem a0 rest p2 hf
          obtain ⟨m, pname⟩ := q
          subst hqp
          exact ⟨m, jcCommands_mem m _ hq⟩

/-- Witness for C8 at a concrete magic invocation. -/
theorem jc_C8_witness : ∃ m, ("ls", some m) ∈ parsersList :=
  jc_C8_no_none_selected ["ls", "-al"] "ls" "ls -al | jc --ls -p" rfl

/-- C7: outside magic resolution the dispatcher scans the argument vector
in order, runs the parser of the first argument whose derived short name
is registered, and never attempts a second parser: the attempt list is
exactly the first match and has length at most one (exactly one when some
argument matches). -/
theorem jc_C7_dispatch_order (argv : List String) :
    dispatchAttempts argv = ((argv.find? isKnownArg).map parser_shortname).toList ∧
    (dispatchAttempts argv).length ≤ 1 ∧
    (argv.any isKnownArg = true → (dispatchAttempts argv).length = 1) := by
  induction argv with
  | nil => exact ⟨rfl, by simp [dispatchAttempts], by simp⟩
  | cons a rest ih =>
    by_cases h : isKnownArg a = true
    · refine ⟨?_, ?_, fun _ => ?_⟩ <;>
        simp [dispatchAttempts, h, List.find?_cons_of_pos]
    · obtain ⟨ih1, ih2, ih3⟩ := ih
      refine ⟨?_, ?_, ?_⟩
      · simpa [dispatchAttempts, h, List.find?_cons_of_neg _ h] using ih1
      · simpa [dispatchAttempts, h] using ih2
      · intro hany
        rw [List.any_cons] at hany
        have hrest : rest.any isKnownArg = true := by
          rcases Bool.or_eq_true_iff.mp hany with h1 | h1
          · exact absurd h1 h
          · exact h1
        simpa [dispatchAttempts, h] using ih3 hrest

/-- Witness for C7 at a concrete argument vector with a match. -/
theorem jc_C7_witness : (dispatchAttempts ["jc", "-q", "--ls", "--ps"]).length = 1 :=
  (jc_C7_dispatch_order ["jc", "-q", "--ls", "--ps"]).2.2 (by decide)

/-- C5: an input containing a line whose job-number token is not an
integer after marker and bracket stripping makes the whole parse fail
(no record list, not even a partial one), and the dispatch boundary of
cli.py converts any such failure to the fixed user-facing message with
exit status 1. -/
theorem jc_C5_fatal_job_number (data : String)
    (h : ∃ line ∈ jobs.cleanLines data, ∃ t0 rest,
      pySplit line 2 = t0 :: rest ∧ pyIntParse (jobs.jobStrip t0) = none) :
    exOk (jobs.parse data) = false ∧
    jobsDispatchOutcome (jobs.parse data) = DispatchOutcome.errorExit jobsErrorMsg 1 := by
  obtain ⟨line, hmem, t0, rest, hsp, hbad⟩ := h
  have hline : ∀ b, jobs.parseLine line ≠ .ok b := by
    intro b hok
    rw [jobs.parseLine, hsp] at hok
    exact processTokens_badJob t0 rest hbad b hok
  have hnot := parse_not_ok_of_mem data line hmem hline
  refine ⟨hnot, ?_⟩
  cases hp : jobs.parse data with
  | error e => rfl
  | ok ys => rw [hp] at hnot; simp [exOk] at hnot

/-- Witness for C5 at a concrete malformed job listing. -/
theorem jc_C5_witness :
    exOk (jobs.parse "[x] Running foo") = false ∧
    jobsDispatchOutcome (jobs.parse "[x] Running foo") =
      DispatchOutcome.errorExit jobsErrorMsg 1 :=
  jc_C5_fatal_job_number "[x] Running foo"
    ⟨"[x] Running foo", by decide, "[x]", ["Running", "foo"], by decide, by decide⟩

/-- A whitespace-only line, a line with fewer than two tokens, or a
sub-three-token short-format line with an integer job-number token all
fail with IndexError. -/
theorem parseLine_indexError_of_shapes (l : String)
    (h : wsOnly l = true ∨ fewTok l = true ∨ shortFewNum l = true) :
    jobs.parseLine l = .error .indexError := by
  rcases h with h | h | h
  · unfold wsOnly at h
    rw [Bool.and_eq_true] at h
    rw [jobs.parseLine, pySplit_eq_nil_of_space l h.2 2]
    rfl
  · unfold fewTok at h
    rw [Bool.and_eq_true] at h
    have hlen := of_decide_eq_true h.2
    cases hsp : pySplit l 2 with
    | nil => rw [jobs.parseLine, hsp]; rfl
    | cons t0 ts =>
      cases ts with
      | nil => rw [jobs.parseLine, hsp]; rfl
      | cons t1 ts2 =>
        rw [hsp] at hlen
        simp at hlen
        omega
  · unfold shortFewNum at h
    split at h
    · rename_i t0 t1 heq
      rw [Bool.and_eq_true] at h
      obtain ⟨n, hn⟩ := Option.isSome_iff_exists.mp h.2
      rw [jobs.parseLine, heq]
      simp only [jobs.processTokens]
      by_cases he : t1.data.isEmpty = true
      · rw [if_pos he]
      · rw [if_neg he, if_neg (by simp [Bool.not_eq_true] at h ⊢; exact h.1)]
        simp [jobs.finishLine, hn, jobs.pidEntry]
    · simp at h

/-- A sub-three-token short-format line never yields a record, whatever
its job-number token looks like. -/
theorem parseLine_shortFew_not_ok (l : String) (h : shortFew l = true) :
    ∀ b, jobs.parseLine l ≠ .ok b := by
  intro b hok
  unfold shortFew at h
  split at h
  · rename_i t0 t1 heq
    rw [jobs.parseLine, heq] at hok
    simp only [jobs.processTokens] at hok
    split at hok
    · simp at hok
    · split at hok
      · simp at hok
      · obtain ⟨n, pe, st, cmd, rest3, -, -, htail, -⟩ := finishLine_ok_elim _ _ _ _ hok
        simp at htail
  · simp at h

/-- Any of the three malformed shapes makes the per-line step fail. -/
theorem parseLine_not_ok_of_shapes (l : String)
    (h : wsOnly l = true ∨ fewTok l = true ∨ shortFew l = true) :
    ∀ b, jobs.parseLine l ≠ .ok b := by
  rcases h with h | h | h
  · intro b hok
    rw [parseLine_indexError_of_shapes l (Or.inl h)] at hok
    exact Except.noConfusion hok
  · intro b hok
    rw [parseLine_indexError_of_shapes l (Or.inr (Or.inl h))] at hok
    exact Except.noConfusion hok
  · exact parseLine_shortFew_not_ok l h

/-- C10 (amended): only fully empty lines are discarded as blank; an input
containing a whitespace-only line, a line with fewer than two tokens, or a
short-format line with fewer than three tokens never returns records; the
raised error is an out-of-range indexing error for such a line except
that a sub-three-token short-format line with a non-integer job-number
token fails at int conversion instead (so the per-line IndexError
guarantee additionally assumes an integer job-number token in the
short-format case). -/
theorem jc_C10_partiality :
    (∀ data line, line ∈ pySplitLines data → line ≠ "" → line ∈ jobs.cleanLines data) ∧
    (∀ data : String, "" ∉ jobs.cleanLines data) ∧
    (∀ data : String,
      (∃ line ∈ jobs.cleanLines data,
        wsOnly line = true ∨ fewTok line = true ∨ shortFew line = true) →
      exOk (jobs.parse data) = false) ∧
    (∀ l : String, wsOnly l = true ∨ fewTok l = true ∨ shortFewNum l = true →
      jobs.parseLine l = .error .indexError) := by
  refine ⟨?_, ?_, ?_, parseLine_indexError_of_shapes⟩
  · intro data line hmem hne
    unfold jobs.cleanLines
    rw [List.mem_filter]
    exact ⟨hmem, by simpa using hne⟩
  · intro data hmem
    unfold jobs.cleanLines at hmem
    rw [List.mem_filter] at hmem
    simp at hmem
  · intro data ⟨line, hmem, hshape⟩
    exact parse_not_ok_of_mem data line hmem (parseLine_not_ok_of_shapes line hshape)

/-- Counterexample to C10 as stated: the two-token short-format line x y
is in the claimed scope but fails with ValueError at int conversion, not
with an out-of-range indexing error. -/
theorem jc_C10_cex : ¬ jobsIndexErrorClaim := by
  intro h
  have h2 := h "x y" ⟨"x y", by decide, Or.inr (Or.inr (by decide))⟩
  have h3 : jobs.parse "x y" = .error .valueError := rfl
  rw [h2] at h3
  exact absurd (Except.error.inj h3) (by decide)

/-- Witness for C10 at concrete malformed lines. -/
theorem jc_C10_witness :
    ("a" ∈ jobs.cleanLines "a\n") ∧
    jobs.parseLine "   " = .error .indexError ∧
    exOk (jobs.parse "[1] Running") = false :=
  ⟨jc_C10_partiality.1 "a\n" "a" (by decide) (by decide),
   jc_C10_partiality.2.2.2 "   " (Or.inl (by decide)),
   jc_C10_partiality.2.2.1 "[1] Running"
     ⟨"[1] Running", by decide, Or.inr (Or.inr (by decide))⟩⟩

/-- C4 (amended): a successfully parsed line carries a pid field exactly
when the first character of its second whitespace token is a digit (the
whole token need not be numeric, since the int conversion also accepts
underscore separators); when that branch is taken on a three-token line,
the first token (stripped) becomes job_number, the second becomes pid,
and the remainder re-splits into exactly the two fields status and
command. -/
theorem jc_C4_pid_detection (l : String) (rec : PyRecord)
    (hok : jobs.parseLine l = .ok rec) :
    ((List.lookup "pid" rec).isSome = true ↔
      ∃ t0 t1 rest, pySplit l 2 = t0 :: t1 :: rest ∧ startsDigit t1 = true) ∧
    (∀ t0 t1 t2, pySplit l 2 = [t0, t1, t2] → startsDigit t1 = true →
      ∃ n p st cmd, pySplit t2 1 = [st, cmd] ∧
        pyIntParse (jobs.jobStrip t0) = some n ∧ pyIntParse t1 = some p ∧
        rec = ("job_number", JVal.num n) :: ("pid", JVal.num p) ::
          jobs.histEntry (jobs.jobHist t0) ++
          [("status", JVal.str st), ("command", JVal.str cmd)]) := by
  rw [jobs.parseLine] at hok
  cases hsp : pySplit l 2 with
  | nil => rw [hsp] at hok; simp [jobs.processTokens] at hok
  | cons t0 ts =>
    cases ts with
    | nil => rw [hsp] at hok; simp [jobs.processTokens] at hok
    | cons t1 rest =>
      rw [hsp] at hok
      simp only [jobs.processTokens] at hok
      split at hok
      · simp at hok
      · rename_i hne
        split at hok
        · rename_i hsd
          split at hok
          · simp at hok
          · rename_i t2 rest2
            obtain ⟨n, pe, st, cmd, rest3, hn, hpe, htail, hrec⟩ :=
              finishLine_ok_elim _ _ _ _ hok
            have ht1ne : t1 ≠ "" := by
              intro hx
              rw [hx] at hne
              exact hne rfl
            obtain ⟨p, hp, hpe2⟩ := pidEntry_ok_nonempty t1 pe ht1ne hpe
            subst hpe2
            have hrest3 : rest3 = [] := by
              have hlen := pySplit_length t2 1
              rw [htail] at hlen
              simp only [List.length_cons] at hlen
              exact List.eq_nil_of_length_eq_zero (by omega)
            subst hrest3
            constructor
            · constructor
              · intro _
                exact ⟨t0, t1, t2 :: rest2, rfl, hsd⟩
              · intro _
                rw [hrec]
                simp [List.lookup]
            · intro t0x t1x t2x heq hsdx
              injection heq with e0 h1
              injection h1 with e1 h2
              injection h2 with e2 e3
              subst e0
              subst e1
              subst e2
              exact ⟨n, p, st, cmd, htail, hn, hp, by rw [hrec]; rfl⟩
        · rename_i hsd
          obtain ⟨n, pe, st, cmd, rest3, hn, hpe, htail, hrec⟩ :=
            finishLine_ok_elim _ _ _ _ hok
          have hpe0 : pe = ([] : PyRecord) := by
            simpa [jobs.pidEntry] using hpe.symm
          subst hpe0
          have hnone : (List.lookup "pid" rec).isSome = false := by
            rw [hrec]
            cases hh : jobs.jobHist t0 <;> simp [jobs.histEntry, List.lookup]
          constructor
          · constructor
            · intro hcon
              rw [hcon] at hnone
              exact Bool.noConfusion hnone
            · rintro ⟨t0x, t1x, restx, heq, hsdx⟩
              injection heq with e0 h1
              injection h1 with e1 h2
              rw [← e1] at hsdx
              exact absurd hsdx hsd
          · intro t0x t1x t2x heq hsdx
            injection heq with e0 h1
            injection h1 with e1 h2
            rw [← e1] at hsdx
            exact absurd hsdx hsd

/-- Counterexample to C4 as stated: on the line with second token 5_0 the
parser emits pid 50 (the int conversion accepts the underscore), although
the entire second token is not numeric, refuting the claimed equivalence
between pid emission and an entirely numeric second token. -/
theorem jc_C4_cex : ¬ pidIffNumericClaim := by
  intro h
  have h1 := (h "[1] 5_0 Running cmd"
      [("job_number", JVal.num 1), ("pid", JVal.num 50),
       ("status", JVal.str "Running"), ("command", JVal.str "cmd")]
      rfl).mp (by decide)
  obtain ⟨t0, t1, rest, heq, hnum⟩ := h1
  have hsp : pySplit "[1] 5_0 Running cmd" 2 = ["[1]", "5_0", "Running cmd"] := rfl
  rw [hsp] at heq
  injection heq with e0 h2
  injection h2 with e1 h3
  rw [← e1] at hnum
  exact absurd hnum (by decide)

/-- Witness for C4 on the long-format scenario line. -/
theorem jc_C4_witness :
    ∃ n p st cmd, pySplit "Running     sleep 10003 &" 1 = [st, cmd] ∧
      pyIntParse (jobs.jobStrip "[4]-") = some n ∧ pyIntParse "14814" = some p ∧
      ([("job_number", JVal.num 4), ("pid", JVal.num 14814),
        ("history", JVal.str "previous"), ("status", JVal.str "Running"),
        ("command", JVal.str "sleep 10003 &")] : PyRecord) =
        ("job_number", JVal.num n) :: ("pid", JVal.num p) ::
          jobs.histEntry (jobs.jobHist "[4]-") ++
          [("status", JVal.str st), ("command", JVal.str cmd)] :=
  (jc_C4_pid_detection "[4]-  14814 Running     sleep 10003 &"
      [("job_number", JVal.num 4), ("pid", JVal.num 14814),
       ("history", JVal.str "previous"), ("status", JVal.str "Running"),
       ("command", JVal.str "sleep 10003 &")] rfl).2
    "[4]-" "14814" "Running     sleep 10003 &" rfl rfl
